import Mathlib

/-!
Verification of the message-to-transaction parser and the
aggregation/reporting engine of the Telegram expense tracker
(`ExpenseTrackerPython_v4.py`), as a shallow embedding in Lean 4.

The embedding follows the Python source line by line:
* `handle_message` (lines 124-196): lowercase the message, split on
  whitespace, extract the `via` payment-method clause, the optional
  `DD/MM` date token, the category, the amount and the description,
  and append a row on success;
* `add_salary` (lines 198-223): parse `/addsalary <amount> [description]`;
* `calculate_balance` (lines 79-89), `get_current_month_expenses`
  (lines 91-100), `generate_report` (lines 253-273),
  `show_today_expenses` (lines 314-341), `payment_method_report`
  (lines 343-369): balance and windowed groupings.

Strings are modelled as Lean `String`s restricted to ASCII behaviour of
Python's `str.lower`/`str.title`; amounts are modelled as exact
rationals (`ℚ`), which is faithful for the decimal literals and the
structural properties considered here.
-/

namespace ExpenseTracker

/-! ## Character-level model of Python's ASCII case operations -/

/-- Lemma: `Char.ofNat` recovers the code point for any valid scalar value. -/
theorem charToNat_ofNat {n : Nat} (h : n < 0xd800) : (Char.ofNat n).toNat = n := by
  rw [Char.ofNat, dif_pos (Or.inl h)]
  simp [Char.ofNatAux, Char.toNat, UInt32.toNat]

/-- Characters with equal code points are equal. -/
theorem char_toNat_inj {c d : Char} (h : c.toNat = d.toNat) : c = d := by
  rw [← Char.ofNat_toNat c, ← Char.ofNat_toNat d, h]

/-- Code point of `Char.toLower`: shift `A`-`Z` up by 32, fix the rest. -/
theorem toLower_toNat (c : Char) :
    c.toLower.toNat = if 65 ≤ c.toNat ∧ c.toNat ≤ 90 then c.toNat + 32 else c.toNat := by
  simp only [Char.toLower]
  split
  · next h => exact charToNat_ofNat (by omega)
  · rfl

/-- Code point of `Char.toUpper`: shift `a`-`z` down by 32, fix the rest. -/
theorem toUpper_toNat (c : Char) :
    c.toUpper.toNat = if 97 ≤ c.toNat ∧ c.toNat ≤ 122 then c.toNat - 32 else c.toNat := by
  simp only [Char.toUpper]
  split
  · next h => exact charToNat_ofNat (by omega)
  · rfl

theorem toLower_toLower (c : Char) : c.toLower.toLower = c.toLower := by
  apply char_toNat_inj
  simp only [toLower_toNat]
  split_ifs <;> omega

theorem toLower_toUpper (c : Char) : c.toUpper.toLower = c.toLower := by
  apply char_toNat_inj
  simp only [toLower_toNat, toUpper_toNat]
  split_ifs <;> omega

theorem toUpper_toLower (c : Char) : c.toLower.toUpper = c.toUpper := by
  apply char_toNat_inj
  simp only [toLower_toNat, toUpper_toNat]
  split_ifs <;> omega

/-- ASCII letter test, modelling Python's `str.isalpha` on ASCII input
(`str.title` word boundaries). -/
def isAsciiAlpha (c : Char) : Bool :=
  decide ((65 ≤ c.toNat ∧ c.toNat ≤ 90) ∨ (97 ≤ c.toNat ∧ c.toNat ≤ 122))

theorem isAsciiAlpha_toLower (c : Char) : isAsciiAlpha c.toLower = isAsciiAlpha c := by
  simp only [isAsciiAlpha, toLower_toNat]
  split_ifs <;> simp only [decide_eq_decide] <;> omega

theorem toLower_of_not_alpha {c : Char} (h : isAsciiAlpha c = false) : c.toLower = c := by
  apply char_toNat_inj
  simp only [isAsciiAlpha, decide_eq_false_iff_not] at h
  simp only [toLower_toNat]
  split_ifs <;> omega

/-- Python `str.split()` whitespace class (space, tab, LF, CR, VT, FF). -/
def isPySpace (c : Char) : Bool :=
  decide (c.toNat = 32 ∨ c.toNat = 9 ∨ c.toNat = 10 ∨ c.toNat = 13 ∨
          c.toNat = 11 ∨ c.toNat = 12)

theorem isPySpace_toLower (c : Char) : isPySpace c.toLower = isPySpace c := by
  simp only [isPySpace, toLower_toNat]
  split_ifs <;> simp only [decide_eq_decide] <;> omega

/-! ## String-level helpers of the Python source -/

/-- Model of `message.lower()` (line 126), restricted to ASCII. -/
def lowerStr (s : String) : String := ⟨s.data.map Char.toLower⟩

theorem lowerStr_mk (l : List Char) : lowerStr ⟨l⟩ = ⟨l.map Char.toLower⟩ := rfl

theorem lowerStr_idem (s : String) : lowerStr (lowerStr s) = lowerStr s := by
  simp only [lowerStr, List.map_map]
  apply congrArg
  apply List.map_congr_left
  intro c _
  exact toLower_toLower c

theorem lowerStr_append (s t : String) :
    lowerStr (s ++ t) = lowerStr s ++ lowerStr t := by
  apply String.ext
  simp [lowerStr]

/-- Model of the `str.title()` word-state machine (line 160): uppercase a letter that
starts a word, lowercase every other letter, pass the rest through.
The `Bool` argument records whether the previous character was a letter. -/
def pyTitleGo : Bool → List Char → List Char
  | _, [] => []
  | prevAlpha, c :: cs =>
    if isAsciiAlpha c then
      (if prevAlpha then c.toLower else c.toUpper) :: pyTitleGo true cs
    else
      c :: pyTitleGo false cs

/-- Model of `parts[0].title()` (line 160), modelling Python `str.title` on ASCII. -/
def pyTitle (s : String) : String := ⟨pyTitleGo false s.data⟩

theorem pyTitleGo_map_toLower (l : List Char) :
    ∀ b, (pyTitleGo b l).map Char.toLower = l.map Char.toLower := by
  induction l with
  | nil => intro b; rfl
  | cons c cs ih =>
    intro b
    by_cases h : isAsciiAlpha c
    · simp only [pyTitleGo, h, if_true, List.map_cons, ih]
      cases b <;> simp [toLower_toLower, toLower_toUpper]
    · simp [pyTitleGo, h, ih]

/-- Title-casing does not change the lowercased text. -/
theorem lowerStr_pyTitle (s : String) : lowerStr (pyTitle s) = lowerStr s := by
  apply String.ext
  simpa [lowerStr, pyTitle] using pyTitleGo_map_toLower s.data false

theorem pyTitleGo_map_toLower_eq (l : List Char) :
    ∀ b, pyTitleGo b (l.map Char.toLower) = pyTitleGo b l := by
  induction l with
  | nil => intro b; rfl
  | cons c cs ih =>
    intro b
    by_cases h : isAsciiAlpha c
    · simp only [List.map_cons, pyTitleGo, isAsciiAlpha_toLower, h, if_true, ih]
      cases b <;> simp [toLower_toLower, toUpper_toLower]
    · simp only [List.map_cons, pyTitleGo, isAsciiAlpha_toLower, h, if_false, ih,
        toLower_of_not_alpha (by simpa using h)]

/-- Title-casing is insensitive to prior lowercasing. -/
theorem pyTitle_lowerStr (s : String) : pyTitle (lowerStr s) = pyTitle s := by
  apply String.ext
  simpa [pyTitle, lowerStr] using pyTitleGo_map_toLower_eq s.data false

/-- Model of `message.split()` (line 128): split on runs of whitespace, no empty
tokens.  The accumulator holds the current token, reversed. -/
def splitWsAux : List Char → List Char → List (List Char)
  | [], acc => if acc = [] then [] else [acc.reverse]
  | c :: cs, acc =>
    if isPySpace c then
      if acc = [] then splitWsAux cs [] else acc.reverse :: splitWsAux cs []
    else
      splitWsAux cs (c :: acc)

def pySplit (s : String) : List String :=
  (splitWsAux s.data []).map (fun l => ⟨l⟩)

theorem splitWsAux_map_toLower (l : List Char) :
    ∀ acc, splitWsAux (l.map Char.toLower) (acc.map Char.toLower)
      = (splitWsAux l acc).map (List.map Char.toLower) := by
  induction l with
  | nil =>
    intro acc
    by_cases h : acc = []
    · simp [splitWsAux, h]
    · simp [splitWsAux, h, List.map_eq_nil_iff]
  | cons c cs ih =>
    intro acc
    by_cases hs : isPySpace c
    · by_cases h : acc = []
      · simpa [splitWsAux, isPySpace_toLower, hs, h, List.map_eq_nil_iff] using ih []
      · simp only [List.map_cons, splitWsAux, isPySpace_toLower, hs, if_true,
          List.map_eq_nil_iff, h, if_false, List.map_reverse]
        simpa using ih []
    · simpa [splitWsAux, isPySpace_toLower, hs] using ih (c :: acc)

/-- Splitting a lowercased message gives the lowercased tokens. -/
theorem pySplit_lowerStr (s : String) :
    pySplit (lowerStr s) = (pySplit s).map lowerStr := by
  simp only [pySplit, lowerStr]
  have := splitWsAux_map_toLower s.data []
  simp only [List.map_nil] at this
  rw [this, List.map_map, List.map_map]
  rfl

/-- Python `token.split(sep)` with a one-character separator: split at
every separator occurrence, keeping empty pieces (so `'a/'.split('/')`
is `['a', '']`).  The accumulator holds the current piece, reversed. -/
def splitOnCharAux (sep : Char) : List Char → List Char → List (List Char)
  | [], acc => [acc.reverse]
  | c :: cs, acc =>
    if c = sep then acc.reverse :: splitOnCharAux sep cs []
    else splitOnCharAux sep cs (c :: acc)

/-- Model of `parts[0].split('/')` (lines 147-148). -/
def splitSlash (s : String) : List String :=
  (splitOnCharAux '/' s.data []).map (fun l => ⟨l⟩)

/-- Python `str.strip()` (line 134): drop whitespace at both ends. -/
def pyStrip (s : String) : String :=
  ⟨((s.data.dropWhile isPySpace).reverse.dropWhile isPySpace).reverse⟩

/-- Model of `' '.join(tokens)` (lines 134, 167, 206). -/
def joinSpace : List String → String
  | [] => ""
  | [x] => x
  | x :: xs => x ++ " " ++ joinSpace xs

theorem lowerStr_joinSpace (l : List String) (h : ∀ t ∈ l, lowerStr t = t) :
    lowerStr (joinSpace l) = joinSpace l := by
  induction l with
  | nil => rfl
  | cons x xs ih =>
    match xs, ih with
    | [], _ => simpa [joinSpace] using h x (by simp)
    | y :: ys, ih =>
      have hx := h x (by simp)
      have hrest : lowerStr (joinSpace (y :: ys)) = joinSpace (y :: ys) :=
        ih (fun t ht => h t (by simp [ht]))
      calc lowerStr (x ++ " " ++ joinSpace (y :: ys))
          = lowerStr x ++ lowerStr " " ++ lowerStr (joinSpace (y :: ys)) := by
            rw [lowerStr_append, lowerStr_append]
        _ = x ++ " " ++ joinSpace (y :: ys) := by rw [hx, hrest]; rfl

/-! ## Numeric token parsing

`int(...)` (line 148) and `float(...)` (lines 162, 205) are modelled for
the finite decimal literals the bot receives: an optional sign followed
by digits, with an optional fractional part for `float`.  Exponents,
`inf`/`nan` and underscore separators are outside the model; binary
floating point is modelled by exact rationals. -/

def natOfDigits (l : List Char) : Nat :=
  l.foldl (fun a c => a * 10 + (c.toNat - 48)) 0

/-- Unsigned part of Python `int()`: a non-empty run of digits. -/
def pyIntUnsigned (l : List Char) : Option Int :=
  if l ≠ [] ∧ l.all Char.isDigit then some (natOfDigits l) else none

/-- Python `int(token)` (line 148). -/
def pyInt (s : String) : Option Int :=
  match s.data with
  | '+' :: rest => pyIntUnsigned rest
  | '-' :: rest => (pyIntUnsigned rest).map Neg.neg
  | l => pyIntUnsigned l

/-- Unsigned part of Python `float()`: digits with an optional `.`,
at least one digit overall. -/
def pyFloatUnsigned (l : List Char) : Option ℚ :=
  match l.splitOn '.' with
  | [a] => if a ≠ [] ∧ a.all Char.isDigit then some (natOfDigits a) else none
  | [a, b] =>
    if a.all Char.isDigit ∧ b.all Char.isDigit ∧ (a ≠ [] ∨ b ≠ []) then
      some ((natOfDigits a : ℚ) + (natOfDigits b : ℚ) / (10 : ℚ) ^ b.length)
    else none
  | _ => none

/-- Python `float(token)` (lines 162, 205). -/
def pyFloat (s : String) : Option ℚ :=
  match s.data with
  | '+' :: rest => pyFloatUnsigned rest
  | '-' :: rest => (pyFloatUnsigned rest).map Neg.neg
  | l => pyFloatUnsigned l

/-! ## Calendar dates

`datetime(current_year, month, day)` (line 151) raises `ValueError` —
caught as the invalid-date reply — unless the year is in Python's
`datetime` range and the day fits the month (proleptic Gregorian). -/

structure Date where
  year : Nat
  month : Nat
  day : Nat
deriving DecidableEq, Repr

def isLeapYear (y : Nat) : Bool :=
  (y % 4 = 0 ∧ y % 100 ≠ 0) ∨ y % 400 = 0

def daysInMonth (y m : Nat) : Nat :=
  if m = 2 then (if isLeapYear y then 29 else 28)
  else if m = 4 ∨ m = 6 ∨ m = 9 ∨ m = 11 then 30
  else 31

/-- Model of `datetime(y, month, day).date()`: `some` exactly on valid calendar
dates (with Python's year bounds 1..9999). -/
def mkDate? (y : Nat) (month day : Int) : Option Date :=
  if 1 ≤ y ∧ y ≤ 9999 ∧ 1 ≤ month ∧ month ≤ 12 ∧
     1 ≤ day ∧ day ≤ (daysInMonth y month.toNat : Int) then
    some ⟨y, month.toNat, day.toNat⟩
  else none

/-! ## Records and the message handler -/

structure ExpenseRecord where
  date : Date
  category : String
  amount : ℚ
  description : String
  paymentMethod : String
deriving DecidableEq, Repr

structure SalaryRecord where
  date : Date
  amount : ℚ
  description : String
deriving DecidableEq, Repr

/-- The outcome of a failed parse, by which reply the handler sends:
`invalidDate` (line 153), `invalidAmount` (lines 164, 221), and
`genericError` for any other exception reaching the outer handler
(lines 190-196) or the `/addsalary` usage reply (line 202). -/
inductive ParseError
  | invalidDate
  | invalidAmount
  | genericError
deriving DecidableEq, Repr

instance exceptDecEq {ε α : Type} [DecidableEq ε] [DecidableEq α] :
    DecidableEq (Except ε α) := fun a b =>
  match a, b with
  | .ok x, .ok y =>
    if h : x = y then isTrue (by rw [h])
    else isFalse (by intro he; cases he; exact h rfl)
  | .error x, .error y =>
    if h : x = y then isTrue (by rw [h])
    else isFalse (by intro he; cases he; exact h rfl)
  | .ok _, .error _ => isFalse (by intro h; cases h)
  | .error _, .ok _ => isFalse (by intro h; cases h)

/-- The list `PAYMENT_METHODS` (line 54). -/
def PAYMENT_METHODS : List String := ["Cash", "UPI", "Card", "Bank Transfer", "Other"]

/-- The `for`/`break`/`else` loop of lines 137-142, translated with its
control flow intact: the `break` at line 140 sits at loop-body level, so
the loop inspects only the first candidate and then exits; the `else`
clause (lines 141-142) runs only when the list is empty. -/
def scanPaymentLoop (methods : List String) (raw : String) (current : String) : String :=
  match methods with
  | [] => "Other"
  | m :: _ => if lowerStr raw = lowerStr m then m else current

/-- Stage of `handle_message` after the date is fixed: category
(line 160), amount (lines 161-165), description (line 167). -/
def parseDated (paymentMethod : String) (expenseDate : Date) :
    List String → Except ParseError ExpenseRecord
  | [] => .error .genericError
  | cat :: rest2 =>
    match rest2 with
    | [] => .error .genericError
    | amtTok :: rest3 =>
      match pyFloat amtTok with
      | none => .error .invalidAmount
      | some amount =>
        let description := if rest3.length > 0 then joinSpace rest3 else ""
        .ok ⟨expenseDate, pyTitle cat, amount, description, paymentMethod⟩

/-- Stage of `handle_message` after the `via` clause is removed: the
date check of lines 146-157.  `refDate` stands for `datetime.now()`. -/
def parseAfterPayment (paymentMethod : String) (parts : List String) (refDate : Date) :
    Except ParseError ExpenseRecord :=
  match parts with
  | [] => .error .genericError
  | tok0 :: rest =>
    if '/' ∈ tok0.data ∧ (splitSlash tok0).length = 2 then
      match (splitSlash tok0).map pyInt with
      | [some day, some month] =>
        match mkDate? refDate.year month day with
        | some d => parseDated paymentMethod d rest
        | none => .error .invalidDate
      | _ => .error .genericError
    else
      parseDated paymentMethod refDate (tok0 :: rest)

/-- The parsing core of `handle_message` (lines 124-167): lowercase,
split, extract the payment method, then hand over to the date stage. -/
def handleParse (rawText : String) (refDate : Date) : Except ParseError ExpenseRecord :=
  let parts := pySplit (lowerStr rawText)
  if "via" ∈ parts then
    let viaIndex := parts.indexOf "via"
    let raw := pyStrip (joinSpace (parts.drop (viaIndex + 1)))
    parseAfterPayment (scanPaymentLoop PAYMENT_METHODS raw "Cash") (parts.take viaIndex) refDate
  else
    parseAfterPayment "Cash" parts refDate

/-- Model of `handle_message` against an explicit ledger: on success the row is
appended (lines 170-176); on a parse error the reply is sent and
nothing is appended. -/
def handle_message (ledger : List ExpenseRecord) (rawText : String) (refDate : Date) :
    List ExpenseRecord × Except ParseError ExpenseRecord :=
  match handleParse rawText refDate with
  | .ok r => (ledger ++ [r], .ok r)
  | .error e => (ledger, .error e)

/-- Model of `add_salary` (lines 198-223): usage reply on no arguments,
invalid-amount reply when `float(args[0])` fails, otherwise append a
record dated at the processing date.  `refDate` stands for
`datetime.now()`. -/
def add_salary (ledger : List SalaryRecord) (args : List String) (refDate : Date) :
    List SalaryRecord × Except ParseError SalaryRecord :=
  match args with
  | [] => (ledger, .error .genericError)
  | a0 :: rest =>
    match pyFloat a0 with
    | none => (ledger, .error .invalidAmount)
    | some amount =>
      let description := if rest.length > 0 then joinSpace rest else "Monthly Salary"
      let r : SalaryRecord := ⟨refDate, amount, description⟩
      (ledger ++ [r], .ok r)

/-! ## Aggregator -/

/-- Model of `pandas.Series.sum` over a column of amounts. -/
def seriesSum (l : List ℚ) : ℚ := l.foldl (fun a x => a + x) 0

/-- Model of `calculate_balance` (lines 79-89): total salary minus total
expenses over the full ledger, each total `0` on an empty frame. -/
def calculate_balance (salary : List SalaryRecord) (expenses : List ExpenseRecord) : ℚ :=
  let total_salary := if salary = [] then 0 else seriesSum (salary.map (fun r => r.amount))
  let total_expenses := if expenses = [] then 0 else seriesSum (expenses.map (fun r => r.amount))
  total_salary - total_expenses

/-- The four time windows used by the reporting commands. -/
inductive Window
  | today
  | currentMonth
  | currentYear
  | allTime
deriving DecidableEq, Repr

/-- The date filters of the reporting code: `today` is the equality of
line 325, `currentMonth` the month-period equality of lines 99-100 and
269, `currentYear` the year equality of line 272, `allTime` the absence
of a filter (line 352). -/
def inWindow (w : Window) (ref d : Date) : Bool :=
  match w with
  | .today => d = ref
  | .currentMonth => d.year = ref.year ∧ d.month = ref.month
  | .currentYear => d.year = ref.year
  | .allTime => true

def filterByWindow (w : Window) (ref : Date) (recs : List ExpenseRecord) :
    List ExpenseRecord :=
  recs.filter (fun r => inWindow w ref r.date)

/-- One step of `groupby(...)['Amount (₹)'].sum()`: add an amount to
its key's bucket, creating the bucket on first sight. -/
def insertAdd (k : String) (v : ℚ) : List (String × ℚ) → List (String × ℚ)
  | [] => [(k, v)]
  | p :: t => if p.1 = k then (p.1, p.2 + v) :: t else p :: insertAdd k v t

/-- Model of `df.groupby(key)['Amount (₹)'].sum()` as a fold over the rows. -/
def groupByKey (key : ExpenseRecord → String) (recs : List ExpenseRecord) :
    List (String × ℚ) :=
  recs.foldl (fun acc r => insertAdd (key r) r.amount acc) []

/-- Model of `groupby('Category')` after the window filter (lines 238, 270, 273). -/
def groupByCategory (w : Window) (ref : Date) (recs : List ExpenseRecord) :
    List (String × ℚ) :=
  groupByKey (fun r => r.category) (filterByWindow w ref recs)

/-- Total amount a grouping assigns to a key (`0` for an absent key). -/
def lookupSum (k : String) (m : List (String × ℚ)) : ℚ :=
  ((m.filter (fun p => p.1 = k)).map (fun p => p.2)).sum

/-! ## Structural lemmas about the parser stages -/

/-- A successful `parseDated` keeps the payment method and date it was
given, and draws category, amount and description from its first,
second and remaining tokens. -/
theorem parseDated_ok {pm : String} {d : Date} {parts : List String} {r : ExpenseRecord}
    (h : parseDated pm d parts = .ok r) :
    r.paymentMethod = pm ∧ r.date = d ∧
    ∃ cat amtTok rest3, parts = cat :: amtTok :: rest3 ∧
      r.category = pyTitle cat ∧ pyFloat amtTok = some r.amount ∧
      r.description = joinSpace rest3 := by
  match parts with
  | [] => simp [parseDated] at h
  | [cat] => simp [parseDated] at h
  | cat :: amtTok :: rest3 =>
    simp only [parseDated] at h
    cases hf : pyFloat amtTok with
    | none => rw [hf] at h; simp at h
    | some a =>
      rw [hf] at h
      simp only [Except.ok.injEq] at h
      subst h
      refine ⟨rfl, rfl, cat, amtTok, rest3, rfl, rfl, hf, ?_⟩
      cases rest3 with
      | nil => simp [joinSpace]
      | cons y ys => simp

/-- A successful `parseAfterPayment` keeps its payment method, and its
category and description tokens come from the token list it was given. -/
theorem parseAfterPayment_ok {pm : String} {parts : List String} {ref : Date}
    {r : ExpenseRecord} (h : parseAfterPayment pm parts ref = .ok r) :
    r.paymentMethod = pm ∧
    ∃ cat rest3, cat ∈ parts ∧ (∀ t ∈ rest3, t ∈ parts) ∧
      r.category = pyTitle cat ∧ r.description = joinSpace rest3 := by
  match parts with
  | [] => simp [parseAfterPayment] at h
  | tok0 :: rest =>
    simp only [parseAfterPayment] at h
    split at h
    · split at h
      · next day month heq =>
        split at h
        · rcases parseDated_ok h with ⟨h1, _, cat, amtTok, rest3, hparts, h3, _, h5⟩
          refine ⟨h1, cat, rest3, ?_, ?_, h3, h5⟩
          · rw [hparts]; simp
          · intro t ht; rw [hparts]; simp [ht]
        · simp at h
      · simp at h
    · rcases parseDated_ok h with ⟨h1, _, cat, amtTok, rest3, hparts, h3, _, h5⟩
      refine ⟨h1, cat, rest3, ?_, ?_, h3, h5⟩
      · rw [hparts]; simp
      · intro t ht; rw [hparts]; simp [ht]

/-- A successful `handleParse` keeps the scanned payment method, and its
category and description tokens come from the lowercased split message. -/
theorem handleParse_ok {raw : String} {ref : Date} {r : ExpenseRecord}
    (h : handleParse raw ref = .ok r) :
    ∃ cat rest3, cat ∈ pySplit (lowerStr raw) ∧
      (∀ t ∈ rest3, t ∈ pySplit (lowerStr raw)) ∧
      r.category = pyTitle cat ∧ r.description = joinSpace rest3 := by
  simp only [handleParse] at h
  split at h
  · rcases (parseAfterPayment_ok h).2 with ⟨cat, rest3, hc, hr, h1, h2⟩
    exact ⟨cat, rest3, List.take_subset _ _ hc,
      fun t ht => List.take_subset _ _ (hr t ht), h1, h2⟩
  · rcases (parseAfterPayment_ok h).2 with ⟨cat, rest3, hc, hr, h1, h2⟩
    exact ⟨cat, rest3, hc, hr, h1, h2⟩

/-- Every token of a lowercased message is fixed by lowercasing. -/
theorem mem_pySplit_lowerStr {s t : String} (ht : t ∈ pySplit (lowerStr s)) :
    lowerStr t = t := by
  rw [pySplit_lowerStr] at ht
  rcases List.mem_map.1 ht with ⟨u, _, rfl⟩
  exact lowerStr_idem u

/-- A parse error leaves the expense ledger unchanged. -/
theorem handle_message_error {ledger : List ExpenseRecord} {raw : String} {ref : Date}
    {e : ParseError} (h : (handle_message ledger raw ref).2 = .error e) :
    (handle_message ledger raw ref).1 = ledger := by
  unfold handle_message at h ⊢
  split at h
  · simp at h
  · rfl

theorem seriesSum_eq_sum (l : List ℚ) : seriesSum l = l.sum := by
  suffices h : ∀ a : ℚ, l.foldl (fun x y => x + y) a = a + l.sum by
    simpa [seriesSum] using h 0
  induction l with
  | nil => intro a; simp
  | cons x xs ih => intro a; simp [ih, add_assoc]

theorem lookupSum_cons (k : String) (p : String × ℚ) (t : List (String × ℚ)) :
    lookupSum k (p :: t) = (if p.1 = k then p.2 else 0) + lookupSum k t := by
  simp only [lookupSum, List.filter_cons]
  split <;> simp_all

theorem lookupSum_insertAdd (k k' : String) (v : ℚ) (m : List (String × ℚ)) :
    lookupSum k (insertAdd k' v m) = lookupSum k m + (if k' = k then v else 0) := by
  induction m with
  | nil =>
    simp only [insertAdd, lookupSum_cons]
    simp [lookupSum]
  | cons p t ih =>
    simp only [insertAdd]
    split
    · next hp =>
      rw [lookupSum_cons, lookupSum_cons]
      subst hp
      split_ifs <;> ring
    · rw [lookupSum_cons, lookupSum_cons, ih]
      ring

theorem lookupSum_groupFold (key : ExpenseRecord → String) (l : List ExpenseRecord)
    (acc : List (String × ℚ)) (k : String) :
    lookupSum k (l.foldl (fun a r => insertAdd (key r) r.amount a) acc)
      = lookupSum k acc + ((l.filter (fun r => key r = k)).map (fun r => r.amount)).sum := by
  induction l generalizing acc with
  | nil => simp
  | cons r t ih =>
    rw [List.foldl_cons, ih, lookupSum_insertAdd, List.filter_cons]
    split <;> simp_all <;> ring

/-- The grouping fold assigns each key the sum of the matching amounts. -/
theorem lookupSum_groupByKey (key : ExpenseRecord → String) (l : List ExpenseRecord)
    (k : String) :
    lookupSum k (groupByKey key l)
      = ((l.filter (fun r => key r = k)).map (fun r => r.amount)).sum := by
  simpa [groupByKey, lookupSum] using lookupSum_groupFold key l [] k

/-! ## The claims -/

/-- C1: the spec claims the `via` phrase is matched against the full
payment-method list, yielding the canonical casing on a match (e.g.
`via UPI` → `"UPI"`) and `"Other"` otherwise.  The code's `break`
(line 140) sits at loop-body level, so the loop compares only against
`'Cash'` and exits; the `for`/`else` fallback to `"Other"` is dead for
a non-empty list.  Consequently the stored payment method is `"Cash"`
for `via UPI`, for `via XYZ`, and for `via bank transfer` alike. -/
theorem via_phrase_payment_always_cash :
    (∀ raw current : String,
      scanPaymentLoop PAYMENT_METHODS raw current
        = if lowerStr raw = lowerStr "Cash" then "Cash" else current) ∧
    (handleParse "food 250 lunch via UPI" ⟨2024, 6, 1⟩).map (fun r => r.paymentMethod)
      = .ok "Cash" ∧
    (handleParse "food 250 lunch via XYZ" ⟨2024, 6, 1⟩).map (fun r => r.paymentMethod)
      = .ok "Cash" ∧
    (handleParse "food 250 lunch via bank transfer" ⟨2024, 6, 1⟩).map
      (fun r => r.paymentMethod) = .ok "Cash" :=
  ⟨fun _ _ => rfl, by decide, by decide, by decide⟩

/-- C2: with no `via` token in the (lowercased, split) message, the
payment method defaults to `"Cash"`; and `food 250 lunch` parses to
category `"Food"`, amount `250`, description `"lunch"`, payment method
`"Cash"`, date equal to the reference date. -/
theorem no_via_defaults_cash (raw : String) (ref : Date) (r : ExpenseRecord)
    (hvia : "via" ∉ pySplit (lowerStr raw))
    (hok : handleParse raw ref = .ok r) :
    r.paymentMethod = "Cash" ∧
    handleParse "food 250 lunch" ref = .ok ⟨ref, "Food", 250, "lunch", "Cash"⟩ := by
  constructor
  · simp only [handleParse] at hok
    rw [if_neg hvia] at hok
    exact (parseAfterPayment_ok hok).1
  · rfl

theorem no_via_defaults_cash_witness :
    "via" ∉ pySplit (lowerStr "food 250 lunch") ∧
    ({ date := ⟨2024, 6, 1⟩, category := "Food", amount := 250, description := "lunch",
       paymentMethod := "Cash" } : ExpenseRecord).paymentMethod = "Cash" :=
  ⟨by decide,
   (no_via_defaults_cash "food 250 lunch" ⟨2024, 6, 1⟩
     ⟨⟨2024, 6, 1⟩, "Food", 250, "lunch", "Cash"⟩ (by decide) (by decide)).1⟩

/-- C3: a first remaining token with exactly one `/` splitting into two
numeric parts is consumed and read as `DD/MM` in the reference year,
failing with the invalid-date reply exactly when the day/month pair is
not a valid calendar date; `15/05` in 2024 gives 2024-05-15, and
`31/02 food 100` fails with the invalid-date reply. -/
theorem ddmm_date_token (pm tok0 : String) (rest : List String) (ref : Date)
    (p1 p2 : String) (day month : Int)
    (hmem : '/' ∈ tok0.data) (hsplit : splitSlash tok0 = [p1, p2])
    (h1 : pyInt p1 = some day) (h2 : pyInt p2 = some month) :
    parseAfterPayment pm (tok0 :: rest) ref =
      (match mkDate? ref.year month day with
       | some d => parseDated pm d rest
       | none => .error .invalidDate) ∧
    handleParse "15/05 food 250 lunch" ⟨2024, 1, 1⟩ =
      .ok ⟨⟨2024, 5, 15⟩, "Food", 250, "lunch", "Cash"⟩ ∧
    handleParse "31/02 food 100" ⟨2024, 1, 1⟩ = .error .invalidDate := by
  refine ⟨?_, by decide, by decide⟩
  simp only [parseAfterPayment]
  rw [if_pos ⟨hmem, by rw [hsplit]; rfl⟩, hsplit]
  simp [h1, h2]

theorem ddmm_date_token_witness :
    parseAfterPayment "Cash" ("15/05" :: ["food", "250"]) ⟨2024, 1, 1⟩ =
      (match mkDate? 2024 5 15 with
       | some d => parseDated "Cash" d ["food", "250"]
       | none => .error .invalidDate) :=
  (ddmm_date_token "Cash" "15/05" ["food", "250"] ⟨2024, 1, 1⟩ "15" "05" 15 5
    (by decide) (by decide) (by decide) (by decide)).1

/-- C4 (as stated) is false: the code's date-shape test (line 147) only
checks for exactly one `/` and two pieces, not that the pieces are
numeric, so `a/b food 100` raises `ValueError` in `int()` and lands in
the generic error handler instead of parsing with the default date. -/
theorem slash_token_nonnumeric_fails :
    handleParse "a/b food 100" ⟨2024, 1, 1⟩ = .error .genericError := by decide

/-- C4 (amended): if the first remaining token does not consist of
exactly one `/` splitting it into two pieces, the date defaults to the
reference date and the token is kept as the category; a token that does
split into two pieces at one `/` but with a non-numeric piece instead
fails with the generic error reply. -/
theorem nondate_token_keeps_refDate (pm tok0 : String) (rest : List String) (ref : Date)
    (h : ¬('/' ∈ tok0.data ∧ (splitSlash tok0).length = 2)) :
    parseAfterPayment pm (tok0 :: rest) ref = parseDated pm ref (tok0 :: rest) ∧
    (∀ r, parseAfterPayment pm (tok0 :: rest) ref = .ok r →
      r.date = ref ∧ r.category = pyTitle tok0) ∧
    (∀ tok p1 p2 : String, '/' ∈ tok.data → splitSlash tok = [p1, p2] →
      pyInt p1 = none ∨ pyInt p2 = none →
      parseAfterPayment pm (tok :: rest) ref = .error .genericError) := by
  have hbase : parseAfterPayment pm (tok0 :: rest) ref = parseDated pm ref (tok0 :: rest) := by
    simp only [parseAfterPayment]
    rw [if_neg h]
  refine ⟨hbase, ?_, ?_⟩
  · intro r hr
    rw [hbase] at hr
    rcases parseDated_ok hr with ⟨_, hd, cat, amtTok, rest3, hparts, hcat, _, _⟩
    cases hparts
    exact ⟨hd, hcat⟩
  · intro tok p1 p2 hm hs hnone
    simp only [parseAfterPayment]
    rw [if_pos ⟨hm, by rw [hs]; rfl⟩, hs]
    rcases hnone with hn | hn
    · rw [List.map_cons, hn]
    · cases hp1 : pyInt p1 <;> simp [hn]

theorem nondate_token_keeps_refDate_witness :
    ¬('/' ∈ "food".data ∧ (splitSlash "food").length = 2) ∧
    parseAfterPayment "Cash" ("food" :: ["250"]) ⟨2024, 1, 1⟩ =
      parseDated "Cash" ⟨2024, 1, 1⟩ ("food" :: ["250"]) :=
  ⟨by decide,
   (nondate_token_keeps_refDate "Cash" "food" ["250"] ⟨2024, 1, 1⟩ (by decide)).1⟩

/-- C5 (as stated) is false: neither handler checks positivity, only
`float()` conversion, so `food -50 snack` appends a record with amount
`-50 ≤ 0` to the expense ledger. -/
theorem negative_amount_appended :
    (handle_message [] "food -50 snack" ⟨2024, 1, 1⟩).1
      = [⟨⟨2024, 1, 1⟩, "Food", -50, "snack", "Cash"⟩] ∧
    ¬ (0 : ℚ) < -50 := by decide

/-- C5 (amended): both handlers reject non-numeric amount tokens with
the invalid-amount reply and append nothing (a parse error never
changes the ledger), but numeric amounts are appended without a
positivity check, so stored amounts are numeric yet not necessarily
positive. -/
theorem nonnumeric_amount_rejected :
    (∀ (ledger : List ExpenseRecord) (raw : String) (ref : Date) (e : ParseError),
      (handle_message ledger raw ref).2 = .error e →
      (handle_message ledger raw ref).1 = ledger) ∧
    (∀ (pm : String) (d : Date) (cat amtTok : String) (rest : List String),
      pyFloat amtTok = none →
      parseDated pm d (cat :: amtTok :: rest) = .error .invalidAmount) ∧
    (∀ (sl : List SalaryRecord) (a0 : String) (rest : List String) (ref : Date),
      pyFloat a0 = none →
      add_salary sl (a0 :: rest) ref = (sl, .error .invalidAmount)) := by
  refine ⟨fun _ _ _ _ h => handle_message_error h, ?_, ?_⟩
  · intro pm d cat amtTok rest hf
    simp [parseDated, hf]
  · intro sl a0 rest ref hf
    simp [add_salary, hf]

theorem nonnumeric_amount_rejected_witness :
    parseDated "Cash" ⟨2024, 1, 1⟩ ("food" :: "abc" :: []) = .error .invalidAmount ∧
    add_salary [] ("abc" :: []) ⟨2024, 1, 1⟩ = ([], .error .invalidAmount) :=
  ⟨nonnumeric_amount_rejected.2.1 "Cash" ⟨2024, 1, 1⟩ "food" "abc" [] (by decide),
   nonnumeric_amount_rejected.2.2 [] "abc" [] ⟨2024, 1, 1⟩ (by decide)⟩

/-- C6: the balance is the sum of all salary amounts minus the sum of
all expense amounts, over the whole ledger regardless of date; it is
`0` on an empty ledger and `650` for salary `[1000]` against expenses
`[250, 100]`. -/
theorem balance_sums (sal : List SalaryRecord) (exp : List ExpenseRecord) :
    calculate_balance sal exp
      = (sal.map (fun r => r.amount)).sum - (exp.map (fun r => r.amount)).sum ∧
    calculate_balance [] [] = 0 ∧
    calculate_balance [⟨⟨2024, 1, 1⟩, 1000, "Monthly Salary"⟩]
      [⟨⟨2024, 1, 1⟩, "Food", 250, "lunch", "Cash"⟩, ⟨⟨2023, 5, 2⟩, "Tea", 100, "", "Cash"⟩]
      = 650 := by
  have hmain : ∀ (s : List SalaryRecord) (e : List ExpenseRecord),
      calculate_balance s e
        = (s.map (fun r => r.amount)).sum - (e.map (fun r => r.amount)).sum := by
    intro s e
    unfold calculate_balance
    split_ifs with h1 h2 h2 <;> simp [h1, h2, seriesSum_eq_sum]
  refine ⟨hmain sal exp, ?_, ?_⟩
  · rw [hmain]
    simp
  · rw [hmain]
    norm_num

/-- C7: a successful `/addsalary` stores the processing date and the
joined argument tokens after the amount as the description, defaulting
to `"Monthly Salary"` when only the amount is given; the record is
appended to the salary ledger. -/
theorem salary_record_fields (sl : List SalaryRecord) (args : List String) (ref : Date)
    (r : SalaryRecord) (h : (add_salary sl args ref).2 = .ok r) :
    r.date = ref ∧
    (args.tail = [] → r.description = "Monthly Salary") ∧
    (args.tail ≠ [] → r.description = joinSpace args.tail) ∧
    (add_salary sl args ref).1 = sl ++ [r] := by
  match args with
  | [] => simp [add_salary] at h
  | a0 :: rest =>
    cases hf : pyFloat a0 with
    | none => simp [add_salary, hf] at h
    | some amount =>
      have hps : add_salary sl (a0 :: rest) ref
          = (sl ++ [⟨ref, amount, if rest.length > 0 then joinSpace rest else "Monthly Salary"⟩],
             .ok ⟨ref, amount, if rest.length > 0 then joinSpace rest else "Monthly Salary"⟩) := by
        simp [add_salary, hf]
      rw [hps] at h
      simp only [Except.ok.injEq] at h
      subst h
      rw [hps]
      refine ⟨rfl, ?_, ?_, rfl⟩
      · intro ht
        simp only [List.tail_cons] at ht
        subst ht
        rfl
      · intro ht
        simp only [List.tail_cons] at ht
        cases rest with
        | nil => exact absurd rfl ht
        | cons y ys => simp

theorem salary_record_fields_witness :
    (⟨⟨2024, 1, 1⟩, 1000, "Monthly Salary"⟩ : SalaryRecord).date = ⟨2024, 1, 1⟩ ∧
    (add_salary [] ["1000"] ⟨2024, 1, 1⟩).1 = [] ++ [⟨⟨2024, 1, 1⟩, 1000, "Monthly Salary"⟩] :=
  ⟨(salary_record_fields [] ["1000"] ⟨2024, 1, 1⟩
      ⟨⟨2024, 1, 1⟩, 1000, "Monthly Salary"⟩ (by decide)).1,
   (salary_record_fields [] ["1000"] ⟨2024, 1, 1⟩
      ⟨⟨2024, 1, 1⟩, 1000, "Monthly Salary"⟩ (by decide)).2.2.2⟩

/-- C8: grouping first filters by the window and then sums per key:
each key's bucket equals the sum of the amounts of the window-filtered
records with that key; the all-time window keeps every record; and the
per-key sums are invariant under reordering of the records. -/
theorem grouping_window_sum (w : Window) (ref : Date) (recs : List ExpenseRecord)
    (k : String) :
    lookupSum k (groupByCategory w ref recs)
      = (((filterByWindow w ref recs).filter (fun r => r.category = k)).map
          (fun r => r.amount)).sum ∧
    filterByWindow .allTime ref recs = recs ∧
    (∀ recs', recs.Perm recs' →
      lookupSum k (groupByCategory w ref recs)
        = lookupSum k (groupByCategory w ref recs')) := by
  refine ⟨lookupSum_groupByKey _ _ _, ?_, ?_⟩
  · simp [filterByWindow, inWindow]
  · intro recs' hp
    rw [groupByCategory, groupByCategory, lookupSum_groupByKey, lookupSum_groupByKey]
    exact List.Perm.sum_eq
      (List.Perm.map _ (List.Perm.filter _ (List.Perm.filter _ hp)))

theorem grouping_window_sum_witness :
    lookupSum "Food"
        (groupByCategory .allTime ⟨2024, 1, 1⟩
          [⟨⟨2024, 1, 1⟩, "Food", 250, "", "Cash"⟩, ⟨⟨2023, 5, 2⟩, "Tea", 100, "", "Cash"⟩])
      = lookupSum "Food"
        (groupByCategory .allTime ⟨2024, 1, 1⟩
          [⟨⟨2023, 5, 2⟩, "Tea", 100, "", "Cash"⟩, ⟨⟨2024, 1, 1⟩, "Food", 250, "", "Cash"⟩]) :=
  (grouping_window_sum .allTime ⟨2024, 1, 1⟩
      [⟨⟨2024, 1, 1⟩, "Food", 250, "", "Cash"⟩, ⟨⟨2023, 5, 2⟩, "Tea", 100, "", "Cash"⟩]
      "Food").2.2
    [⟨⟨2023, 5, 2⟩, "Tea", 100, "", "Cash"⟩, ⟨⟨2024, 1, 1⟩, "Food", 250, "", "Cash"⟩]
    (List.Perm.swap _ _ _)

/-- C9: whenever `handle_message` ends in a parse-error reply, the
expense ledger is left exactly as it was — no row is appended. -/
theorem parse_error_preserves_ledger (ledger : List ExpenseRecord) (raw : String)
    (ref : Date) (e : ParseError)
    (h : (handle_message ledger raw ref).2 = .error e) :
    (handle_message ledger raw ref).1 = ledger :=
  handle_message_error h

theorem parse_error_preserves_ledger_witness :
    (handle_message [⟨⟨2024, 1, 1⟩, "Food", 250, "", "Cash"⟩] "food abc desc"
        ⟨2024, 1, 1⟩).2 = .error .invalidAmount ∧
    (handle_message [⟨⟨2024, 1, 1⟩, "Food", 250, "", "Cash"⟩] "food abc desc"
        ⟨2024, 1, 1⟩).1 = [⟨⟨2024, 1, 1⟩, "Food", 250, "", "Cash"⟩] :=
  ⟨by decide,
   parse_error_preserves_ledger [⟨⟨2024, 1, 1⟩, "Food", 250, "", "Cash"⟩]
     "food abc desc" ⟨2024, 1, 1⟩ .invalidAmount (by decide)⟩

/-- C10: the stored fields are derived from the lowercased input — the
parse is insensitive to pre-lowercasing the raw text, the stored
description is entirely lowercase (a fixed point of lowercasing), and
the stored category is the title-casing of its own lowercasing. -/
theorem fields_lowercased (raw : String) (ref : Date) (r : ExpenseRecord)
    (h : handleParse raw ref = .ok r) :
    handleParse (lowerStr raw) ref = handleParse raw ref ∧
    lowerStr r.description = r.description ∧
    r.category = pyTitle (lowerStr r.category) := by
  rcases handleParse_ok h with ⟨cat, rest3, hc, hr, hcat, hdesc⟩
  refine ⟨by simp only [handleParse, lowerStr_idem], ?_, ?_⟩
  · rw [hdesc]
    exact lowerStr_joinSpace rest3 (fun t ht => mem_pySplit_lowerStr (hr t ht))
  · rw [hcat, lowerStr_pyTitle, mem_pySplit_lowerStr hc]

theorem fields_lowercased_witness :
    lowerStr (ExpenseRecord.description ⟨⟨2024, 6, 1⟩, "Food", 250, "lunch", "Cash"⟩)
      = ExpenseRecord.description ⟨⟨2024, 6, 1⟩, "Food", 250, "lunch", "Cash"⟩ ∧
    ExpenseRecord.category ⟨⟨2024, 6, 1⟩, "Food", 250, "lunch", "Cash"⟩
      = pyTitle (lowerStr
          (ExpenseRecord.category ⟨⟨2024, 6, 1⟩, "Food", 250, "lunch", "Cash"⟩)) :=
  ⟨(fields_lowercased "FOOD 250 LuNCH" ⟨2024, 6, 1⟩
      ⟨⟨2024, 6, 1⟩, "Food", 250, "lunch", "Cash"⟩ (by decide)).2.1,
   (fields_lowercased "FOOD 250 LuNCH" ⟨2024, 6, 1⟩
      ⟨⟨2024, 6, 1⟩, "Food", 250, "lunch", "Cash"⟩ (by decide)).2.2⟩

end ExpenseTracker
